import Mathlib

/-!
Verification of the streaming conversion pipeline of a serial terminal
utility (src/main.rs).  The embedding models:

* the `ConvertFrom` enumeration and its `FromStr` parser;
* the pure byte-to-text transforms (hex, binary, chunked 16/32-bit
  little-endian integer decoding) and the raw-mode counter scan;
* the streaming loop `serial_to_writer`: its per-iteration `copy` closure
  (read, transform, write, once-per-second report) together with the outer
  `loop` that routes every error to `serial_read_error` and continues.

Bytes are `Nat` values (real bytes are below 256; hypotheses state the
bound where a claim needs it).  Time is modelled in whole seconds, which
is the resolution the code uses for its reporting check
(`time.as_secs() >= 1`).  The serial port and the sink are external
collaborators: each loop iteration consumes an `Event` recording what the
port read returned and whether the buffered write succeeded, subject to
the `read` contract that at most `buf.len()` bytes are produced.
-/

namespace Oxterm

/-- The `ConvertFrom` enumeration of src/main.rs (transform mode). -/
inductive ConvertFrom where
  | NON
  | HEX
  | BIN
  | INT
  | UINT
  | USHR
  | SHR
  | FLT
  deriving DecidableEq, Repr

/-- `impl FromStr for ConvertFrom`: an exact string match on the uppercase
tokens; any other string is the `InvalidConvertFrom` error (here `none`). -/
def convertFromStr (s : String) : Option ConvertFrom :=
  if s = "NON" then some .NON
  else if s = "HEX" then some .HEX
  else if s = "BIN" then some .BIN
  else if s = "INT" then some .INT
  else if s = "SHR" then some .SHR
  else if s = "UINT" then some .UINT
  else if s = "USHR" then some .USHR
  else if s = "FLT" then some .FLT
  else none

/-- ASCII bytes of a string, as the text written by `write!` macros. -/
def strBytes (s : String) : List Nat :=
  s.toList.map Char.toNat

/-- The raw-mode counter scan of `ConvertFrom::NON`: fold over the buffer
starting from the current (words, commas, lines) counters, classifying
byte 32 as a word boundary, byte 10 as a line boundary and byte 44 as a
comma, exactly as the `match b` in the source. -/
def scanCounts (buf : List Nat) (wcl : Nat × Nat × Nat) : Nat × Nat × Nat :=
  buf.foldl
    (fun acc b =>
      match acc with
      | (w, c, l) =>
        if b = 32 then (w + 1, c, l)
        else if b = 10 then (w, c, l + 1)
        else if b = 44 then (w, c + 1, l)
        else (w, c, l))
    wcl

/-- `write!(out, "{:x}", byte)`: lowercase hexadecimal text of one byte,
no padding (`Nat.toDigits 16` renders minimal lowercase digits, and the
single digit "0" for zero, as the Rust `LowerHex` formatting does). -/
def hexByte (b : Nat) : List Nat :=
  strBytes (Nat.toDigits 16 b).asString

/-- `write!(out, "{:b}", byte)`: binary text of one byte, no padding. -/
def binByte (b : Nat) : List Nat :=
  strBytes (Nat.toDigits 2 b).asString

/-- `buf.array_chunks::<4>()`: non-overlapping 4-byte chunks from the
front; a trailing remainder of fewer than 4 bytes is dropped. -/
def chunks4 : List Nat → List (Nat × Nat × Nat × Nat)
  | b0 :: b1 :: b2 :: b3 :: rest => (b0, b1, b2, b3) :: chunks4 rest
  | _ => []

/-- `buf.array_chunks::<2>()`: non-overlapping 2-byte chunks from the
front; a trailing single byte is dropped. -/
def chunks2 : List Nat → List (Nat × Nat)
  | b0 :: b1 :: rest => (b0, b1) :: chunks2 rest
  | _ => []

/-- `u32::from_le_bytes`: little-endian unsigned 32-bit decoding. -/
def u32le : Nat × Nat × Nat × Nat → Nat
  | (b0, b1, b2, b3) => b0 + 2 ^ 8 * b1 + 2 ^ 16 * b2 + 2 ^ 24 * b3

/-- `u16::from_le_bytes`: little-endian unsigned 16-bit decoding. -/
def u16le : Nat × Nat → Nat
  | (b0, b1) => b0 + 2 ^ 8 * b1

/-- `i32::from_le_bytes`: the unsigned decoding reinterpreted in two's
complement. -/
def i32le (c : Nat × Nat × Nat × Nat) : Int :=
  if u32le c < 2 ^ 31 then (u32le c : Int) else (u32le c : Int) - 2 ^ 32

/-- `i16::from_le_bytes`: the unsigned decoding reinterpreted in two's
complement. -/
def i16le (c : Nat × Nat) : Int :=
  if u16le c < 2 ^ 15 then (u16le c : Int) else (u16le c : Int) - 2 ^ 16

/-- The display bytes produced by the `match args.convertfrom` dispatch in
`serial_to_writer`, as a function of the full buffer contents it iterates
over.  `NON` leaves the buffer unchanged (the counter scan is separate,
see `scanCounts`); every other arm builds a fresh text buffer.  The `FLT`
arm formats `f32` values with the `Display` of Rust floats, which this
embedding does not model: it is abstracted by the `fltR` parameter, and no
claim depends on it. -/
def displayOf (fltR : Nat × Nat × Nat × Nat → List Nat)
    (m : ConvertFrom) (buf : List Nat) : List Nat :=
  match m with
  | .NON => buf
  | .HEX => buf.flatMap hexByte
  | .BIN => buf.flatMap binByte
  | .INT => (chunks4 buf).flatMap fun c => strBytes (toString (i32le c))
  | .UINT => (chunks4 buf).flatMap fun c => strBytes (toString (u32le c))
  | .SHR => (chunks2 buf).flatMap fun c => strBytes (toString (i16le c))
  | .USHR => (chunks2 buf).flatMap fun c => strBytes (toString (u16le c))
  | .FLT => (chunks4 buf).flatMap fltR

/-- The state owned by `serial_to_writer` across iterations: the reusable
read buffer, the four counters, the window timestamp, plus the observable
history — bytes appended to the buffered sink (`out.write_all`), report
lines printed by `println!`, and diagnostics printed by `eprintln!` in
`serial_read_error`. -/
structure St where
  buf : List Nat
  words : Nat
  commas : Nat
  bytes : Nat
  instLines : Nat
  stamp : Nat
  sink : List Nat
  reports : List String
  errs : List String
  deriving DecidableEq, Repr

/-- What `port.read(buf)` returned this iteration: `ok written` means the
read wrote the bytes `written` at the front of the buffer and returned
their number, `timedOut` is the `io::ErrorKind::TimedOut` case, and
`fatal msg` any other I/O error, carrying its diagnostic text. -/
inductive ReadRes where
  | ok (written : List Nat)
  | timedOut
  | fatal (msg : String)
  deriving DecidableEq, Repr

/-- One loop iteration's external inputs: the read outcome, whether the
buffered write succeeded (`none`) or failed with a diagnostic, and the
value of `Instant::now()` in whole seconds. -/
structure Event where
  read : ReadRes
  wErr : Option String
  now : Nat
  deriving DecidableEq, Repr

/-- The `read` contract: `port.read` receives the vector dereferenced to a
slice of its current length, so it can produce at most `buf.length` bytes
(and a fatal or timed-out read produces none). -/
def ValidEv (s : St) (ev : Event) : Prop :=
  match ev.read with
  | .ok w => w.length ≤ s.buf.length
  | _ => True

instance (s : St) (ev : Event) : Decidable (ValidEv s ev) := by
  unfold ValidEv; exact match ev.read with
    | .ok _ => inferInstance
    | .timedOut => inferInstance
    | .fatal _ => inferInstance

/-- Decimal text of the floating-point quotient `n as f64 / elapsed`, in
the integral cases this development evaluates it at (numerator zero, or
elapsed exactly one second): there the `f64` quotient is the exact natural
quotient and Rust prints it without a fractional part. -/
def rateText (n elapsed : Nat) : String :=
  toString (n / elapsed)

/-- The report line `w{}, c{}, b{}, l{}` built from the four counter
values the `println!` reads and the elapsed seconds. -/
def reportLine (w c b l elapsed : Nat) : String :=
  "w" ++ rateText w elapsed ++ ", c" ++ rateText c elapsed ++
    ", b" ++ rateText b elapsed ++ ", l" ++ rateText l elapsed

/-- The once-per-second reporting check at the end of `copy`: if at least
one second elapsed since `stamp`, the code zeroes all four counters FIRST,
then prints the report line from the (now zeroed) counters divided by the
elapsed time, then sets `stamp = now`.  The zero-then-print order is
exactly the statement order of the source. -/
def reportCheck (now : Nat) (s : St) : St :=
  if 1 ≤ now - s.stamp then
    let s0 := { s with words := 0, commas := 0, bytes := 0, instLines := 0 }
    { s0 with
      reports := s0.reports ++
        [reportLine s0.words s0.commas s0.bytes s0.instLines (now - s.stamp)],
      stamp := now }
  else s

/-- The buffer contents after `port.read` wrote `written` over the front
of the current contents (the slice handed to `read` is the vector at its
current length, so bytes past the written prefix keep their old value). -/
def postRead (written buf : List Nat) : List Nat :=
  written ++ buf.drop written.length

/-- The data phase of a successful read `Ok(n)`: the read has placed
`written` over the front of the buffer; `count_bytes += n`; then the
transform dispatch runs over the whole buffer — raw mode scans it into the
counters and keeps it, every other mode replaces it by the display text. -/
def dataPhase (fltR : Nat × Nat × Nat × Nat → List Nat) (m : ConvertFrom)
    (written : List Nat) (s : St) : St :=
  match m with
  | .NON =>
    { s with
      buf := postRead written s.buf,
      bytes := s.bytes + written.length,
      words := (scanCounts (postRead written s.buf)
        (s.words, s.commas, s.instLines)).1,
      commas := (scanCounts (postRead written s.buf)
        (s.words, s.commas, s.instLines)).2.1,
      instLines := (scanCounts (postRead written s.buf)
        (s.words, s.commas, s.instLines)).2.2 }
  | _ =>
    { s with
      buf := displayOf fltR m (postRead written s.buf),
      bytes := s.bytes + written.length }

/-- One call of the `copy` closure combined with the outer loop's
`match copy()` arm: a fatal read returns `Err` before the write, so the
loop reports it and nothing else happens; otherwise (success or timeout)
`out.write_all(&buf)?` appends the whole buffer to the sink — on a write
error the `?` propagates to the loop's `serial_read_error`, skipping the
reporting check but keeping every mutation made before it — and finally
the reporting check runs. -/
def copyStep (fltR : Nat × Nat × Nat × Nat → List Nat) (m : ConvertFrom)
    (s : St) (ev : Event) : St :=
  match ev.read with
  | .fatal msg => { s with errs := s.errs ++ [msg] }
  | r =>
    let s1 := match r with
      | .ok written => dataPhase fltR m written s
      | _ => s
    match ev.wErr with
    | some msg => { s1 with errs := s1.errs ++ [msg] }
    | none => reportCheck ev.now { s1 with sink := s1.sink ++ s1.buf }

/-- The infinite `loop` of `serial_to_writer`, run over a finite prefix of
iteration inputs: it never breaks, every iteration feeds the next. -/
def runLoop (fltR : Nat × Nat × Nat × Nat → List Nat) (m : ConvertFrom)
    (s : St) : List Event → St
  | [] => s
  | ev :: evs => runLoop fltR m (copyStep fltR m s ev) evs

/-- An event sequence respecting the `read` contract at every state it is
consumed in. -/
def ValidRun (fltR : Nat × Nat × Nat × Nat → List Nat) (m : ConvertFrom)
    (s : St) : List Event → Prop
  | [] => True
  | ev :: evs => ValidEv s ev ∧ ValidRun fltR m (copyStep fltR m s ev) evs

/-- The pipeline state as `serial_to_writer` builds it before the loop:
`Vec::with_capacity(args.capacity)` is an EMPTY vector (length 0, only
capacity reserved), all counters zero, `stamp = Instant::now()` = `t0`,
and no output yet.  The configured capacity never appears in the state
because the vector length, not the capacity, is what every later step
reads. -/
def initSt (t0 : Nat) : St :=
  { buf := [], words := 0, commas := 0, bytes := 0, instLines := 0,
    stamp := t0, sink := [], reports := [], errs := [] }

/-- Spec-side: the value of one lowercase hexadecimal ASCII digit
(48-57 are the digits, 97-102 the lowercase letters a-f). -/
def hexDigitVal (c : Nat) : Option Nat :=
  if 48 ≤ c ∧ c ≤ 57 then some (c - 48)
  else if 97 ≤ c ∧ c ≤ 102 then some (c - 87)
  else none

/-- Spec-side: the number denoted by a most-significant-first string of
lowercase hexadecimal ASCII digits, `none` if any byte is not such a
digit. -/
def hexValue (l : List Nat) : Option Nat :=
  l.foldl (fun acc d => acc.bind fun a => (hexDigitVal d).map fun v => 16 * a + v)
    (some 0)

/-- Spec-side (the direct little-endian decoding of the spec, sentence of
C6): least-significant byte first. -/
def leNat (l : List Nat) : Nat :=
  l.foldr (fun b acc => b + 2 ^ 8 * acc) 0

/-- Spec-side (C6): two's complement reinterpretation of `u` modulo `m`. -/
def toSigned (m u : Nat) : Int :=
  if u < m / 2 then (u : Int) else (u : Int) - (m : Int)

/-- Spec-side (C6): the non-overlapping k-byte chunks of `b` as the
consecutive k-byte segments from the front, one per full multiple of `k`
in the length; trailing bytes past the last full chunk do not appear. -/
def specChunks (k : Nat) (b : List Nat) : List (List Nat) :=
  (List.range (b.length / k)).map fun i => (b.drop (k * i)).take k

/-- A 4-tuple chunk as the byte list it came from. -/
def c4list : Nat × Nat × Nat × Nat → List Nat
  | (b0, b1, b2, b3) => [b0, b1, b2, b3]

/-- A 2-tuple chunk as the byte list it came from. -/
def c2list : Nat × Nat → List Nat
  | (b0, b1) => [b0, b1]

/-- Along a run: every successful read of the run returned zero bytes. -/
def ReadsNil (fltR : Nat × Nat × Nat × Nat → List Nat) (m : ConvertFrom) :
    St → List Event → Prop
  | _, [] => True
  | s, ev :: evs =>
    (∀ w, ev.read = .ok w → w = []) ∧ ReadsNil fltR m (copyStep fltR m s ev) evs

/-! ## Helper lemmas -/

theorem displayOf_nil (fltR : Nat × Nat × Nat × Nat → List Nat)
    (m : ConvertFrom) : displayOf fltR m [] = [] := by
  cases m <;> rfl

/-- The raw-mode scan adds exactly the occurrence counts of the three
classified bytes to the running counters. -/
theorem scanCounts_spec (buf : List Nat) (w c l : Nat) :
    scanCounts buf (w, c, l) =
      (w + buf.count 32, c + buf.count 44, l + buf.count 10) := by
  induction buf generalizing w c l with
  | nil => simp [scanCounts]
  | cons b rest ih =>
    have hstep : scanCounts (b :: rest) (w, c, l) =
        scanCounts rest
          (if b = 32 then (w + 1, c, l)
           else if b = 10 then (w, c, l + 1)
           else if b = 44 then (w, c + 1, l)
           else (w, c, l)) := rfl
    rw [hstep]
    split_ifs with h32 h10 h44
    · subst h32
      simp [ih, List.count_cons, Prod.ext_iff]
      omega
    · subst h10
      simp [ih, List.count_cons, Prod.ext_iff]
      omega
    · subst h44
      simp [ih, List.count_cons, Prod.ext_iff]
      omega
    · simp [ih, List.count_cons, Prod.ext_iff, beq_iff_eq, h32, h10, h44]

set_option maxRecDepth 4096 in
/-- Every byte below 256 renders under the hex formatting as lowercase
hexadecimal digits that decode back to the byte, one digit below 16 and
two digits otherwise (so no padding). -/
theorem hexByte_sound : ∀ b, b < 256 →
    hexValue (hexByte b) = some b ∧
    (hexByte b).length = if b < 16 then 1 else 2 := by decide

/-- The 4-chunking of the source (`array_chunks::<4>`) produces exactly
the consecutive 4-byte segments of the input, one per full multiple of 4,
dropping the remainder. -/
theorem chunks4_segments : ∀ b : List Nat, (chunks4 b).map c4list = specChunks 4 b
  | [] => by simp [chunks4, specChunks]
  | [b0] => by simp [chunks4, specChunks]
  | [b0, b1] => by simp [chunks4, specChunks]
  | [b0, b1, b2] => by simp [chunks4, specChunks]
  | b0 :: b1 :: b2 :: b3 :: rest => by
    have ih := chunks4_segments rest
    show c4list (b0, b1, b2, b3) :: (chunks4 rest).map c4list = _
    rw [ih]
    have hlen : (b0 :: b1 :: b2 :: b3 :: rest).length = rest.length + 4 := by
      simp
    have hdiv : (rest.length + 4) / 4 = rest.length / 4 + 1 :=
      Nat.add_div_right _ (by norm_num)
    unfold specChunks
    rw [hlen, hdiv, List.range_succ_eq_map, List.map_cons, List.map_map]
    congr 1

/-- The 2-chunking of the source (`array_chunks::<2>`) produces exactly
the consecutive 2-byte segments of the input, dropping a trailing byte. -/
theorem chunks2_segments : ∀ b : List Nat, (chunks2 b).map c2list = specChunks 2 b
  | [] => by simp [chunks2, specChunks]
  | [b0] => by simp [chunks2, specChunks]
  | b0 :: b1 :: rest => by
    have ih := chunks2_segments rest
    show c2list (b0, b1) :: (chunks2 rest).map c2list = _
    rw [ih]
    have hlen : (b0 :: b1 :: rest).length = rest.length + 2 := by simp
    have hdiv : (rest.length + 2) / 2 = rest.length / 2 + 1 :=
      Nat.add_div_right _ (by norm_num)
    unfold specChunks
    rw [hlen, hdiv, List.range_succ_eq_map, List.map_cons, List.map_map]
    congr 1

theorem chunks4_length (b : List Nat) : (chunks4 b).length = b.length / 4 := by
  have h := congrArg List.length (chunks4_segments b)
  simpa [specChunks] using h

theorem chunks2_length (b : List Nat) : (chunks2 b).length = b.length / 2 := by
  have h := congrArg List.length (chunks2_segments b)
  simpa [specChunks] using h

/-- The tupled 32-bit little-endian decode agrees with the direct
little-endian decoding of the chunk as a byte list. -/
theorem u32le_leNat (c : Nat × Nat × Nat × Nat) : u32le c = leNat (c4list c) := by
  obtain ⟨b0, b1, b2, b3⟩ := c
  simp [u32le, leNat, c4list]
  ring

/-- The tupled 16-bit little-endian decode agrees with the direct
little-endian decoding of the chunk as a byte list. -/
theorem u16le_leNat (c : Nat × Nat) : u16le c = leNat (c2list c) := by
  obtain ⟨b0, b1⟩ := c
  simp [u16le, leNat, c2list]

/-- The signed 32-bit decode is the two's complement reinterpretation of
the unsigned decode. -/
theorem i32le_toSigned (c : Nat × Nat × Nat × Nat) :
    i32le c = toSigned (2 ^ 32) (u32le c) := by
  simp only [i32le, toSigned]
  norm_num

/-- The signed 16-bit decode is the two's complement reinterpretation of
the unsigned decode. -/
theorem i16le_toSigned (c : Nat × Nat) :
    i16le c = toSigned (2 ^ 16) (u16le c) := by
  simp only [i16le, toSigned]
  norm_num

theorem reportCheck_sink (now : Nat) (s : St) :
    (reportCheck now s).sink = s.sink := by
  unfold reportCheck
  split <;> rfl

theorem reportCheck_buf (now : Nat) (s : St) :
    (reportCheck now s).buf = s.buf := by
  unfold reportCheck
  split <;> rfl

theorem reportCheck_errs (now : Nat) (s : St) :
    (reportCheck now s).errs = s.errs := by
  unfold reportCheck
  split <;> rfl

/-- Below one elapsed second the reporting check does nothing at all. -/
theorem reportCheck_lt (now : Nat) (s : St) (h : now - s.stamp < 1) :
    reportCheck now s = s := by
  unfold reportCheck
  rw [if_neg]
  omega

/-- The raw-mode data phase: the buffer keeps the post-read contents and
the three scan counters each grow by the occurrence count of their byte
over the WHOLE buffer. -/
theorem dataPhase_non (fltR : Nat × Nat × Nat × Nat → List Nat)
    (w : List Nat) (s : St) :
    dataPhase fltR .NON w s =
      { s with buf := postRead w s.buf,
               bytes := s.bytes + w.length,
               words := s.words + (postRead w s.buf).count 32,
               commas := s.commas + (postRead w s.buf).count 44,
               instLines := s.instLines + (postRead w s.buf).count 10 } := by
  unfold dataPhase
  rw [scanCounts_spec]

/-- The converted-mode data phase: the buffer is replaced by the display
text of the WHOLE post-read buffer contents; counters other than the byte
counter do not move. -/
theorem dataPhase_conv (fltR : Nat × Nat × Nat × Nat → List Nat)
    (m : ConvertFrom) (w : List Nat) (s : St) (hm : m ≠ ConvertFrom.NON) :
    dataPhase fltR m w s =
      { s with buf := displayOf fltR m (postRead w s.buf),
               bytes := s.bytes + w.length } := by
  cases m
  · exact absurd rfl hm
  all_goals rfl

/-- A step from an empty buffer under the read contract keeps the buffer
empty and appends nothing to the sink. -/
theorem copyStep_nil (fltR : Nat × Nat × Nat × Nat → List Nat)
    (m : ConvertFrom) (s : St) (ev : Event)
    (hbuf : s.buf = []) (hval : ValidEv s ev) :
    (copyStep fltR m s ev).buf = [] ∧ (copyStep fltR m s ev).sink = s.sink := by
  obtain ⟨r, werr, now⟩ := ev
  cases r with
  | fatal msg => exact ⟨hbuf, rfl⟩
  | timedOut =>
    cases werr with
    | some msg => exact ⟨hbuf, rfl⟩
    | none =>
      have h : copyStep fltR m s ⟨.timedOut, none, now⟩
          = reportCheck now { s with sink := s.sink ++ s.buf } := rfl
      rw [h, reportCheck_buf, reportCheck_sink, hbuf]
      exact ⟨rfl, by simp⟩
  | ok w =>
    have hw : w = [] := by
      have h : w.length ≤ s.buf.length := hval
      rw [hbuf] at h
      exact List.length_eq_zero.mp (Nat.le_zero.mp h)
    subst hw
    have hdata : dataPhase fltR m [] s
        = { s with buf := displayOf fltR m [] } := by
      by_cases hm : m = ConvertFrom.NON
      · subst hm
        rw [dataPhase_non]
        simp [postRead, hbuf, displayOf]
      · rw [dataPhase_conv fltR m [] s hm]
        simp [postRead, hbuf]
    cases werr with
    | some msg =>
      have h : copyStep fltR m s ⟨.ok [], some msg, now⟩
          = { dataPhase fltR m [] s with
                errs := (dataPhase fltR m [] s).errs ++ [msg] } := rfl
      rw [h, hdata]
      simp [displayOf_nil]
    | none =>
      have h : copyStep fltR m s ⟨.ok [], none, now⟩
          = reportCheck now { dataPhase fltR m [] s with
              sink := (dataPhase fltR m [] s).sink ++ (dataPhase fltR m [] s).buf } := rfl
      rw [h, reportCheck_buf, reportCheck_sink, hdata]
      simp [displayOf_nil]

/-- Runs that start from an empty buffer and respect the read contract
keep the buffer empty, never append a byte to the sink, and every
successful read of the run returns zero bytes. -/
theorem runLoop_nil (fltR : Nat × Nat × Nat × Nat → List Nat)
    (m : ConvertFrom) :
    ∀ (evs : List Event) (s : St), s.buf = [] → ValidRun fltR m s evs →
      (runLoop fltR m s evs).buf = [] ∧
      (runLoop fltR m s evs).sink = s.sink ∧
      ReadsNil fltR m s evs := by
  intro evs
  induction evs with
  | nil => exact fun s h _ => ⟨h, rfl, trivial⟩
  | cons ev evs ih =>
    intro s hbuf hval
    obtain ⟨hv, hrest⟩ := hval
    obtain ⟨hstepbuf, hstepsink⟩ := copyStep_nil fltR m s ev hbuf hv
    obtain ⟨h1, h2, h3⟩ := ih (copyStep fltR m s ev) hstepbuf hrest
    refine ⟨h1, ?_, ?_, h3⟩
    · show (runLoop fltR m (copyStep fltR m s ev) evs).sink = s.sink
      rw [h2, hstepsink]
    · intro w hw
      have h : w.length ≤ s.buf.length := by
        have h0 := hv
        unfold ValidEv at h0
        rw [hw] at h0
        exact h0
      rw [hbuf] at h
      exact List.length_eq_zero.mp (Nat.le_zero.mp h)

theorem dataPhase_reports (fltR : Nat × Nat × Nat × Nat → List Nat)
    (m : ConvertFrom) (w : List Nat) (s : St) :
    (dataPhase fltR m w s).reports = s.reports := by
  cases m <;> rfl

theorem dataPhase_stamp (fltR : Nat × Nat × Nat × Nat → List Nat)
    (m : ConvertFrom) (w : List Nat) (s : St) :
    (dataPhase fltR m w s).stamp = s.stamp := by
  cases m <;> rfl

theorem dataPhase_sink (fltR : Nat × Nat × Nat × Nat → List Nat)
    (m : ConvertFrom) (w : List Nat) (s : St) :
    (dataPhase fltR m w s).sink = s.sink := by
  cases m <;> rfl

/-! ## The claims -/

/-- C1: at counters word=10, comma=5, byte=100, line=2 and exactly one
elapsed second the reporting check does fire, but the code zeroes all four
counters BEFORE the `println!`, so the emitted line is `w0, c0, b0, l0`
and not the `w10, c5, b100, l2` the claim requires (which is what the same
format would print had the counters still held their values).  The
counters being zero and the window being reset after emission do hold. -/
theorem c1_report_prints_zeroed_counters :
    (reportCheck 1 { initSt 0 with
        words := 10, commas := 5, bytes := 100, instLines := 2 }).reports
      = ["w0, c0, b0, l0"] ∧
    reportLine 10 5 100 2 1 = "w10, c5, b100, l2" ∧
    "w0, c0, b0, l0" ≠ "w10, c5, b100, l2" ∧
    (reportCheck 1 { initSt 0 with
        words := 10, commas := 5, bytes := 100, instLines := 2 }).words = 0 ∧
    (reportCheck 1 { initSt 0 with
        words := 10, commas := 5, bytes := 100, instLines := 2 }).commas = 0 ∧
    (reportCheck 1 { initSt 0 with
        words := 10, commas := 5, bytes := 100, instLines := 2 }).bytes = 0 ∧
    (reportCheck 1 { initSt 0 with
        words := 10, commas := 5, bytes := 100, instLines := 2 }).instLines = 0 ∧
    (reportCheck 1 { initSt 0 with
        words := 10, commas := 5, bytes := 100, instLines := 2 }).stamp = 1 := by
  decide

/-- C2: in any reachable iteration state (the buffer is empty there, see
`runLoop_nil`), a `TimedOut` read with a successful write appends nothing
to the sink and changes no counter in the data phase, and the iteration is
exactly the once-per-second reporting check applied to the unchanged
state; below one elapsed second the whole iteration is a no-op. -/
theorem c2_timeout_skips_data_but_reports
    (fltR : Nat × Nat × Nat × Nat → List Nat) (m : ConvertFrom)
    (s : St) (ev : Event)
    (hbuf : s.buf = []) (hr : ev.read = .timedOut) (hw : ev.wErr = none) :
    copyStep fltR m s ev = reportCheck ev.now s ∧
    (copyStep fltR m s ev).sink = s.sink ∧
    (ev.now - s.stamp < 1 → copyStep fltR m s ev = s) := by
  obtain ⟨r, werr, now⟩ := ev
  have hr2 : r = .timedOut := hr
  have hw2 : werr = none := hw
  subst hr2
  subst hw2
  have h : copyStep fltR m s ⟨.timedOut, none, now⟩
      = reportCheck now { s with sink := s.sink ++ s.buf } := rfl
  have hs : ({ s with sink := s.sink ++ s.buf } : St) = s := by
    have hsink : s.sink ++ s.buf = s.sink := by
      rw [hbuf]
      simp
    rw [hsink]
  rw [h, hs]
  exact ⟨rfl, reportCheck_sink now s, fun hlt => reportCheck_lt now s hlt⟩

/-- Witness for C2 at the initial state and a concrete timeout event. -/
theorem c2_timeout_skips_data_but_reports_witness :
    (initSt 7).buf = [] ∧
    (copyStep (fun _ => []) ConvertFrom.NON (initSt 7) ⟨.timedOut, none, 7⟩
        = reportCheck 7 (initSt 7) ∧
      (copyStep (fun _ => []) ConvertFrom.NON (initSt 7)
          ⟨.timedOut, none, 7⟩).sink = (initSt 7).sink ∧
      (7 - (initSt 7).stamp < 1 →
        copyStep (fun _ => []) ConvertFrom.NON (initSt 7) ⟨.timedOut, none, 7⟩
          = initSt 7)) :=
  ⟨rfl, c2_timeout_skips_data_but_reports (fun _ => []) ConvertFrom.NON
    (initSt 7) ⟨.timedOut, none, 7⟩ rfl rfl rfl⟩

/-- C3: a read can return at most the CURRENT buffer length, not the
configured capacity: in raw mode every valid run from the initial state
(empty vector, capacity only reserved) keeps the buffer empty, every
successful read returns 0 bytes, and the sink never receives a byte; in a
converted mode the buffer after a successful read is exactly the display
text of that iteration, so the next valid read is bounded by the length of
the previous display text. -/
theorem c3_reads_bounded_by_current_length
    (fltR : Nat × Nat × Nat × Nat → List Nat) :
    (∀ (t0 : Nat) (evs : List Event),
      ValidRun fltR .NON (initSt t0) evs →
        (runLoop fltR .NON (initSt t0) evs).buf = [] ∧
        (runLoop fltR .NON (initSt t0) evs).sink = [] ∧
        ReadsNil fltR .NON (initSt t0) evs) ∧
    (∀ (m : ConvertFrom), m ≠ ConvertFrom.NON →
      ∀ (s : St) (w : List Nat) (werr : Option String) (now : Nat),
        (copyStep fltR m s ⟨.ok w, werr, now⟩).buf
          = displayOf fltR m (postRead w s.buf) ∧
        (∀ (ev2 : Event) (w2 : List Nat), ev2.read = .ok w2 →
          ValidEv (copyStep fltR m s ⟨.ok w, werr, now⟩) ev2 →
          w2.length ≤ (displayOf fltR m (postRead w s.buf)).length)) := by
  constructor
  · intro t0 evs hval
    exact runLoop_nil fltR .NON evs (initSt t0) rfl hval
  · intro m hm s w werr now
    have hbufeq : (copyStep fltR m s ⟨.ok w, werr, now⟩).buf
        = displayOf fltR m (postRead w s.buf) := by
      cases werr with
      | some msg =>
        have h : copyStep fltR m s ⟨.ok w, some msg, now⟩
            = { dataPhase fltR m w s with
                  errs := (dataPhase fltR m w s).errs ++ [msg] } := rfl
        rw [h]
        show (dataPhase fltR m w s).buf = _
        rw [dataPhase_conv fltR m w s hm]
      | none =>
        have h : copyStep fltR m s ⟨.ok w, none, now⟩
            = reportCheck now { dataPhase fltR m w s with
                sink := (dataPhase fltR m w s).sink
                  ++ (dataPhase fltR m w s).buf } := rfl
        rw [h, reportCheck_buf]
        show (dataPhase fltR m w s).buf = _
        rw [dataPhase_conv fltR m w s hm]
    refine ⟨hbufeq, ?_⟩
    intro ev2 w2 hr2 hval2
    have h : w2.length ≤ (copyStep fltR m s ⟨.ok w, werr, now⟩).buf.length := by
      have h0 := hval2
      unfold ValidEv at h0
      rw [hr2] at h0
      exact h0
    rwa [hbufeq] at h

/-- Witness for C3: a one-event valid raw run leaves the sink empty, and
a hex-mode step from a two-byte buffer state replaces the buffer with the
display text of the whole post-read contents. -/
theorem c3_reads_bounded_by_current_length_witness :
    (runLoop (fun _ => []) ConvertFrom.NON (initSt 0)
        [⟨.ok [], none, 0⟩]).sink = [] ∧
    (copyStep (fun _ => []) ConvertFrom.HEX { initSt 0 with buf := [0, 255] }
        ⟨.ok [], none, 0⟩).buf
      = displayOf (fun _ => []) ConvertFrom.HEX (postRead [] [0, 255]) :=
  ⟨((c3_reads_bounded_by_current_length (fun _ => [])).1 0
      [⟨.ok [], none, 0⟩] ⟨by decide, trivial⟩).2.1,
    ((c3_reads_bounded_by_current_length (fun _ => [])).2 ConvertFrom.HEX
      (by decide) { initSt 0 with buf := [0, 255] } [] none 0).1⟩

/-- C4 counterexample: the claim says a successful read of 0 bytes yields
empty display output and no counter updates, but at a state whose buffer
holds one stale space byte (allowed by the read contract, first conjunct)
a 0-byte raw-mode read still bumps the word counter and writes the stale
byte, and a 0-byte hex-mode read produces the non-empty display "20". -/
theorem c4_counterexample :
    ValidEv { initSt 0 with buf := [32] } ⟨.ok [], none, 0⟩ ∧
    (copyStep (fun _ => []) ConvertFrom.NON { initSt 0 with buf := [32] }
        ⟨.ok [], none, 0⟩).words = 1 ∧
    (initSt 0).words = 0 ∧
    (copyStep (fun _ => []) ConvertFrom.HEX { initSt 0 with buf := [32] }
        ⟨.ok [], none, 0⟩).buf = strBytes "20" := by
  decide

/-- C4 amended: the transform and the raw counter scan run over the WHOLE
current buffer contents, not only the `bytes_read` bytes just read; since
in every reachable state of this program the buffer is empty, every read
returns 0 bytes and then the display output is indeed empty and no counter
moves. -/
theorem c4_transform_scans_whole_buffer
    (fltR : Nat × Nat × Nat × Nat → List Nat) (m : ConvertFrom)
    (s : St) (w : List Nat) (hval : w.length ≤ s.buf.length) :
    (dataPhase fltR .NON w s).words = s.words + (postRead w s.buf).count 32 ∧
    (dataPhase fltR .NON w s).commas = s.commas + (postRead w s.buf).count 44 ∧
    (dataPhase fltR .NON w s).instLines
        = s.instLines + (postRead w s.buf).count 10 ∧
    (m ≠ ConvertFrom.NON →
      (dataPhase fltR m w s).buf = displayOf fltR m (postRead w s.buf)) ∧
    (s.buf = [] → w = [] ∧
      (dataPhase fltR m w s).buf = [] ∧
      (dataPhase fltR m w s).words = s.words ∧
      (dataPhase fltR m w s).commas = s.commas ∧
      (dataPhase fltR m w s).instLines = s.instLines ∧
      (dataPhase fltR m w s).bytes = s.bytes) := by
  refine ⟨?_, ?_, ?_, ?_, ?_⟩
  · rw [dataPhase_non]
  · rw [dataPhase_non]
  · rw [dataPhase_non]
  · intro hm
    rw [dataPhase_conv fltR m w s hm]
  · intro hbuf
    have hw : w = [] := by
      rw [hbuf] at hval
      exact List.length_eq_zero.mp (Nat.le_zero.mp hval)
    subst hw
    by_cases hm : m = ConvertFrom.NON
    · subst hm
      rw [dataPhase_non]
      simp [postRead, hbuf]
    · rw [dataPhase_conv fltR m [] s hm]
      simp [postRead, hbuf, displayOf_nil]

/-- Witness for C4 amended, at the initial state and a hex-mode step. -/
theorem c4_transform_scans_whole_buffer_witness :
    ([] : List Nat).length ≤ (initSt 0).buf.length ∧
    ((dataPhase (fun _ => []) ConvertFrom.NON [] (initSt 0)).words
        = (initSt 0).words + (postRead [] (initSt 0).buf).count 32 ∧
      (dataPhase (fun _ => []) ConvertFrom.NON [] (initSt 0)).commas
        = (initSt 0).commas + (postRead [] (initSt 0).buf).count 44 ∧
      (dataPhase (fun _ => []) ConvertFrom.NON [] (initSt 0)).instLines
        = (initSt 0).instLines + (postRead [] (initSt 0).buf).count 10 ∧
      (ConvertFrom.HEX ≠ ConvertFrom.NON →
        (dataPhase (fun _ => []) ConvertFrom.HEX [] (initSt 0)).buf
          = displayOf (fun _ => []) ConvertFrom.HEX
              (postRead [] (initSt 0).buf)) ∧
      ((initSt 0).buf = [] → ([] : List Nat) = [] ∧
        (dataPhase (fun _ => []) ConvertFrom.HEX [] (initSt 0)).buf = [] ∧
        (dataPhase (fun _ => []) ConvertFrom.HEX [] (initSt 0)).words
          = (initSt 0).words ∧
        (dataPhase (fun _ => []) ConvertFrom.HEX [] (initSt 0)).commas
          = (initSt 0).commas ∧
        (dataPhase (fun _ => []) ConvertFrom.HEX [] (initSt 0)).instLines
          = (initSt 0).instLines ∧
        (dataPhase (fun _ => []) ConvertFrom.HEX [] (initSt 0)).bytes
          = (initSt 0).bytes)) :=
  ⟨by decide, c4_transform_scans_whole_buffer (fun _ => []) ConvertFrom.HEX
    (initSt 0) [] (by decide)⟩

/-- C5: the raw transform passes every byte sequence through unchanged,
and the word, comma and line counters grow by exactly the occurrence
counts of the bytes 32, 44 and 10 in the scanned sequence. -/
theorem c5_raw_passthrough_and_counts
    (fltR : Nat × Nat × Nat × Nat → List Nat) (b : List Nat) (w c l : Nat) :
    displayOf fltR .NON b = b ∧
    scanCounts b (w, c, l) =
      (w + b.count 32, c + b.count 44, l + b.count 10) :=
  ⟨rfl, scanCounts_spec b w c l⟩

/-- C6: the 32-bit and 16-bit integer transforms split the input into the
non-overlapping consecutive little-endian chunks (4 resp. 2 bytes), decode
each chunk directly (unsigned place-value sum, signed via two's
complement), render the decimal texts concatenated with no separator, and
drop trailing bytes that do not fill a chunk: 6 bytes in Int32 mode yield
exactly 1 decoded value, and UInt16 on bytes 01 00 yields "1". -/
theorem c6_chunked_integer_transforms
    (fltR : Nat × Nat × Nat × Nat → List Nat) (b : List Nat) :
    displayOf fltR .UINT b
        = (specChunks 4 b).flatMap (fun c => strBytes (toString (leNat c))) ∧
    displayOf fltR .INT b
        = (specChunks 4 b).flatMap
            (fun c => strBytes (toString (toSigned (2 ^ 32) (leNat c)))) ∧
    displayOf fltR .USHR b
        = (specChunks 2 b).flatMap (fun c => strBytes (toString (leNat c))) ∧
    displayOf fltR .SHR b
        = (specChunks 2 b).flatMap
            (fun c => strBytes (toString (toSigned (2 ^ 16) (leNat c)))) ∧
    (chunks4 b).length = b.length / 4 ∧
    (chunks2 b).length = b.length / 2 ∧
    displayOf fltR .USHR [1, 0] = strBytes "1" ∧
    displayOf fltR .INT [10, 11, 12, 13, 14, 15]
        = strBytes (toString (i32le (10, 11, 12, 13))) := by
  refine ⟨?_, ?_, ?_, ?_, chunks4_length b, chunks2_length b,
    by rfl, by rfl⟩
  · rw [← chunks4_segments, List.flatMap_map]
    simp only [displayOf, u32le_leNat]
  · rw [← chunks4_segments, List.flatMap_map]
    simp only [displayOf, i32le_toSigned, u32le_leNat]
  · rw [← chunks2_segments, List.flatMap_map]
    simp only [displayOf, u16le_leNat]
  · rw [← chunks2_segments, List.flatMap_map]
    simp only [displayOf, i16le_toSigned, u16le_leNat]

/-- C7: the hex transform renders each byte as its lowercase hexadecimal
text, concatenated with no separator and no padding: the digits of a byte
below 256 decode back to it, one digit below 16 and two otherwise, and in
particular bytes 0A FF render as "aff" and byte 00 as "0". -/
theorem c7_hex_lowercase_no_padding
    (fltR : Nat × Nat × Nat × Nat → List Nat) (b : Nat) (rest : List Nat)
    (hb : b < 256) :
    displayOf fltR .HEX (b :: rest) = hexByte b ++ displayOf fltR .HEX rest ∧
    hexValue (hexByte b) = some b ∧
    ((hexByte b).length = if b < 16 then 1 else 2) ∧
    displayOf fltR .HEX [10, 255] = strBytes "aff" ∧
    displayOf fltR .HEX [0] = strBytes "0" := by
  obtain ⟨h1, h2⟩ := hexByte_sound b hb
  exact ⟨by simp [displayOf], h1, h2, by rfl, by rfl⟩

/-- Witness for C7 at byte 0x0A followed by 0xFF. -/
theorem c7_hex_lowercase_no_padding_witness :
    10 < 256 ∧
    (displayOf (fun _ => []) ConvertFrom.HEX (10 :: [255])
        = hexByte 10 ++ displayOf (fun _ => []) ConvertFrom.HEX [255] ∧
      hexValue (hexByte 10) = some 10 ∧
      ((hexByte 10).length = if 10 < 16 then 1 else 2) ∧
      displayOf (fun _ => []) ConvertFrom.HEX [10, 255] = strBytes "aff" ∧
      displayOf (fun _ => []) ConvertFrom.HEX [0] = strBytes "0") :=
  ⟨by decide, c7_hex_lowercase_no_padding (fun _ => []) 10 [255] (by decide)⟩

/-- C8: parsing the convert token is case-sensitive, not case-insensitive
as claimed (and as the HELP text of the program itself promises): the
exact uppercase token "HEX" parses, while the variants "hex" and "Hex"
are rejected as `InvalidConvertFrom`. -/
theorem c8_convert_parse_case_sensitive :
    convertFromStr "HEX" = some ConvertFrom.HEX ∧
    convertFromStr "hex" = none ∧
    convertFromStr "Hex" = none ∧
    convertFromStr "non" = none ∧
    convertFromStr "NON" = some ConvertFrom.NON := by
  decide

/-- C9: a fatal (non-TimedOut) read error makes the iteration return
before the write, so the sink and every counter and the buffer are
unchanged and only the diagnostic is appended; the loop then continues
with the remaining iterations instead of terminating. -/
theorem c9_fatal_read_reported_loop_continues
    (fltR : Nat × Nat × Nat × Nat → List Nat) (m : ConvertFrom)
    (s : St) (ev : Event) (msg : String) (rest : List Event)
    (hr : ev.read = .fatal msg) :
    copyStep fltR m s ev = { s with errs := s.errs ++ [msg] } ∧
    (copyStep fltR m s ev).sink = s.sink ∧
    (copyStep fltR m s ev).errs = s.errs ++ [msg] ∧
    runLoop fltR m s (ev :: rest)
      = runLoop fltR m { s with errs := s.errs ++ [msg] } rest := by
  obtain ⟨r, werr, now⟩ := ev
  have hr2 : r = .fatal msg := hr
  subst hr2
  exact ⟨rfl, rfl, rfl, rfl⟩

/-- Witness for C9: a concrete fatal read followed by one more iteration
that still executes. -/
theorem c9_fatal_read_reported_loop_continues_witness :
    copyStep (fun _ => []) ConvertFrom.NON (initSt 0) ⟨.fatal "port gone", none, 3⟩
      = { initSt 0 with errs := (initSt 0).errs ++ ["port gone"] } ∧
    (copyStep (fun _ => []) ConvertFrom.NON (initSt 0)
        ⟨.fatal "port gone", none, 3⟩).sink = (initSt 0).sink ∧
    (copyStep (fun _ => []) ConvertFrom.NON (initSt 0)
        ⟨.fatal "port gone", none, 3⟩).errs = (initSt 0).errs ++ ["port gone"] ∧
    runLoop (fun _ => []) ConvertFrom.NON (initSt 0)
        [⟨.fatal "port gone", none, 3⟩, ⟨.timedOut, none, 5⟩]
      = runLoop (fun _ => []) ConvertFrom.NON
          { initSt 0 with errs := (initSt 0).errs ++ ["port gone"] }
          [⟨.timedOut, none, 5⟩] :=
  c9_fatal_read_reported_loop_continues (fun _ => []) ConvertFrom.NON
    (initSt 0) ⟨.fatal "port gone", none, 3⟩ "port gone"
    [⟨.timedOut, none, 5⟩] rfl

/-- C10 counterexample: a failing write does NOT crash the program: the
outer loop catches the propagated write error exactly like a read error,
records the diagnostic, and the next iteration still runs — it even emits
the periodic report line afterwards. -/
theorem c10_counterexample :
    (runLoop (fun _ => []) ConvertFrom.NON (initSt 0)
        [⟨.timedOut, some "sink write failure", 0⟩,
         ⟨.timedOut, none, 2⟩]).errs
      = ["sink write failure"] ∧
    (runLoop (fun _ => []) ConvertFrom.NON (initSt 0)
        [⟨.timedOut, some "sink write failure", 0⟩,
         ⟨.timedOut, none, 2⟩]).reports
      = ["w0, c0, b0, l0"] := by
  decide

/-- C10 amended: the write error does propagate out of the `copy` closure
(the reporting check of that iteration is skipped, mutations made before
the write are kept), but the streaming loop catches it, records a
diagnostic, and continues with the next iteration; the program does not
crash. -/
theorem c10_write_error_caught_and_loop_continues
    (fltR : Nat × Nat × Nat × Nat → List Nat) (m : ConvertFrom)
    (s : St) (ev : Event) (msg : String) (rest : List Event)
    (hw : ev.wErr = some msg) :
    (ev.read = .timedOut →
      copyStep fltR m s ev = { s with errs := s.errs ++ [msg] }) ∧
    (∀ w, ev.read = .ok w →
      copyStep fltR m s ev
        = { dataPhase fltR m w s with
              errs := (dataPhase fltR m w s).errs ++ [msg] }) ∧
    (copyStep fltR m s ev).reports = s.reports ∧
    (copyStep fltR m s ev).stamp = s.stamp ∧
    (copyStep fltR m s ev).sink = s.sink ∧
    runLoop fltR m s (ev :: rest)
      = runLoop fltR m (copyStep fltR m s ev) rest := by
  obtain ⟨r, werr, now⟩ := ev
  have hw2 : werr = some msg := hw
  subst hw2
  refine ⟨?_, ?_, ?_, ?_, ?_, rfl⟩
  · intro hr
    have hr2 : r = .timedOut := hr
    subst hr2
    rfl
  · intro w hr
    have hr2 : r = .ok w := hr
    subst hr2
    rfl
  · cases r with
    | fatal m2 => rfl
    | timedOut => rfl
    | ok w =>
      show (dataPhase fltR m w s).reports = s.reports
      rw [dataPhase_reports]
  · cases r with
    | fatal m2 => rfl
    | timedOut => rfl
    | ok w =>
      show (dataPhase fltR m w s).stamp = s.stamp
      rw [dataPhase_stamp]
  · cases r with
    | fatal m2 => rfl
    | timedOut => rfl
    | ok w =>
      show (dataPhase fltR m w s).sink = s.sink
      rw [dataPhase_sink]

/-- Witness for C10 amended at a concrete write-failure event. -/
theorem c10_write_error_caught_and_loop_continues_witness :
    ((⟨.ok [], some "disk full", 9⟩ : Event).read = .timedOut →
      copyStep (fun _ => []) ConvertFrom.NON (initSt 0) ⟨.ok [], some "disk full", 9⟩
        = { initSt 0 with errs := (initSt 0).errs ++ ["disk full"] }) ∧
    (∀ w, (⟨.ok [], some "disk full", 9⟩ : Event).read = .ok w →
      copyStep (fun _ => []) ConvertFrom.NON (initSt 0) ⟨.ok [], some "disk full", 9⟩
        = { dataPhase (fun _ => []) ConvertFrom.NON w (initSt 0) with
              errs := (dataPhase (fun _ => []) ConvertFrom.NON w (initSt 0)).errs
                ++ ["disk full"] }) ∧
    (copyStep (fun _ => []) ConvertFrom.NON (initSt 0)
        ⟨.ok [], some "disk full", 9⟩).reports = (initSt 0).reports ∧
    (copyStep (fun _ => []) ConvertFrom.NON (initSt 0)
        ⟨.ok [], some "disk full", 9⟩).stamp = (initSt 0).stamp ∧
    (copyStep (fun _ => []) ConvertFrom.NON (initSt 0)
        ⟨.ok [], some "disk full", 9⟩).sink = (initSt 0).sink ∧
    runLoop (fun _ => []) ConvertFrom.NON (initSt 0)
        [⟨.ok [], some "disk full", 9⟩, ⟨.timedOut, none, 11⟩]
      = runLoop (fun _ => []) ConvertFrom.NON
          (copyStep (fun _ => []) ConvertFrom.NON (initSt 0)
            ⟨.ok [], some "disk full", 9⟩)
          [⟨.timedOut, none, 11⟩] :=
  c10_write_error_caught_and_loop_continues (fun _ => []) ConvertFrom.NON
    (initSt 0) ⟨.ok [], some "disk full", 9⟩ "disk full"
    [⟨.timedOut, none, 11⟩] rfl

end Oxterm
